import Mathlib

/-!
Verification development for the build-orchestration core of rocker
(`src/rocker/build/internals.go`).

The Go code is shallowly embedded: the builder's session state is a
structure, the remote docker engine is an oracle structure whose fields
give the responses of each engine endpoint, and every builder method is a
Lean function that returns its Go results together with the updated
session state and the list of engine / filesystem calls it issued.
Concurrency in the cache prober's fan-out is made explicit through an
arrival schedule: the list of inspection results in the order the select
loop receives them, each paired with the waiting time since the previous
loop iteration (the unit is seconds; the Go timer is `time.After(10 *
time.Second)`, re-armed at every iteration of the select loop).
-/

set_option autoImplicit false

namespace Rocker

/-- Go `error` values are modelled by their message strings. -/
abbrev GoError := String

/-- Association-list update used to model Go map assignment `m[k] = v`. -/
def mapInsert (m : List (String × String)) (k v : String) : List (String × String) :=
  if m.any (fun p => p.1 == k) then
    m.map (fun p => if p.1 == k then (k, v) else p)
  else
    m ++ [(k, v)]

/-- The container configuration draft (`docker.Config`), restricted to the
fields the embedded methods read or write.  Map-typed fields (labels,
volumes) are association lists / element lists. -/
structure DockerConfig where
  Cmd : List String
  Entrypoint : List String
  Env : List String
  Labels : List (String × String)
  Volumes : List String
  Image : String
deriving DecidableEq, Repr

/-- Order-insensitive comparison of element lists (Go `map[string]struct{}`). -/
def sameSet (l1 l2 : List String) : Bool :=
  l1.all (fun x => l2.contains x) && l2.all (fun x => l1.contains x)

/-- Order-insensitive comparison of association lists (Go `map[string]string`). -/
def sameMap (l1 l2 : List (String × String)) : Bool :=
  l1.all (fun p => l2.any (fun q => p.1 == q.1 && p.2 == q.2)) &&
  l2.all (fun p => l1.any (fun q => p.1 == q.1 && p.2 == q.2))

/-- Modelled from the spec: `CompareConfigs` lives outside `internals.go`
(and outside `src/`); the spec describes it as a deterministic
field-by-field structural comparison, order-insensitive for mapping-typed
fields and order-sensitive for sequence-typed fields. -/
def CompareConfigs (a b : DockerConfig) : Bool :=
  a.Cmd == b.Cmd && a.Entrypoint == b.Entrypoint && a.Env == b.Env &&
  sameMap a.Labels b.Labels && sameSet a.Volumes b.Volumes && a.Image == b.Image

/-- An entry of the engine's `ListImages` answer (`docker.APIImages`):
only the identity and parent identity are read by the code. -/
structure APIImage where
  ID : String
  ParentID : String
deriving DecidableEq, Repr

/-- An inspected image record (`docker.Image`).  `Created` is the creation
timestamp; Go's `t1.Before(t2)` is the strict order `t1 < t2`. -/
structure Image where
  ID : String
  Created : Nat
  ContainerConfig : DockerConfig
  Config : DockerConfig
deriving DecidableEq, Repr

/-- A node of the instruction AST (`parser.Node`): the instruction keyword
(`Value`) and the chain of argument nodes (`Next` chain) flattened into a
list. -/
structure Node where
  Value : String
  args : List String
deriving DecidableEq, Repr

/-- A container record as returned by the auxiliary-container `ensure`
call. -/
structure Container where
  ID : String
deriving DecidableEq, Repr

/-- Engine and filesystem calls issued by the builder, recorded as a trace. -/
inductive Call where
  | listImages
  | inspectImage (id : String)
  | buildImage (dockerfileText : String) (noCache : Bool)
  | pullImage (name : String)
  | pushImage (name : String)
  | ensureContainer (name : String)
  | writeFile (name : String)
  | removeFile (name : String)
deriving DecidableEq, Repr

/-- The engine / environment oracle: one field per external response the
embedded methods consume.  Function-valued fields answer per-argument.
`serializeAst` models `RockerfileAstToString` and `ensureContainer` models
`builder.ensureContainer`; both are repository code outside `src/`,
modelled from the spec (serialization of the instruction tree to build-file
text; create-if-absent container provisioning). -/
structure World where
  listImages : Except GoError (List APIImage)
  inspectImage : String → Except GoError Image
  buildResult : Option GoError
  buildOutput : String
  buildStreamErr : Option GoError
  pullResult : String → Option GoError
  pullStreamErr : Option GoError
  serializeAst : List Node → Except GoError String
  writeFileErr : Option GoError
  ensureContainer : String → DockerConfig → String → Except GoError Container

/-- The build-session state (`Builder`), restricted to the fields the
embedded methods read or write. -/
structure Builder where
  imageID : String
  Config : DockerConfig
  dockerfile : List Node
  UtilizeCache : Bool
  cacheBusted : Bool
  exportsContainerID : String
  Rockerfile : String
  dockerfileNameStr : String
  exportsContainerNameStr : String
deriving Repr

/-- The timeout error of the cache prober's collect loop. -/
def timeoutMsg : GoError := "Timeout while fetching cached images"

/-- One step of the select loop's match bookkeeping: a received image
replaces the current best match iff its configuration compares equal and
its creation time is strictly later (`match.Created.Before(image.Created)`). -/
def updateMatch (config : DockerConfig) (m : Option Image) (img : Image) : Option Image :=
  if CompareConfigs img.ContainerConfig config then
    match m with
    | none => some img
    | some cur => if cur.Created < img.Created then some img else some cur
  else m

/-- The pure selection the collect loop performs over the images it
receives, in arrival order. -/
def selectMatch (config : DockerConfig) (imgs : List Image) : Option Image :=
  imgs.foldl (updateMatch config) none

/-- The select loop of `imageGetCached`.  `sched` lists, in arrival order,
the sibling each goroutine inspected together with the waiting time since
the previous loop iteration; a wait of 10 or more fires the re-armed
`time.After(10 * time.Second)` timer first.  An empty remaining schedule
while responses are still outstanding also ends in the timer firing. -/
def collectCached (w : World) (config : DockerConfig) (total : Nat) :
    List (Nat × String) → Option Image → Nat → Except GoError (Option Image)
  | [], _, _ => .error timeoutMsg
  | (gap, sid) :: rest, m, n =>
    if 10 ≤ gap then .error timeoutMsg
    else
      match w.inspectImage sid with
      | .error e => .error e
      | .ok img =>
        let m2 := updateMatch config m img
        if n + 1 == total then .ok m2
        else collectCached w config total rest m2 (n + 1)

/-- The sibling filter of `imageGetCached`: identities of the listed images
whose parent identity equals the probed image. -/
def siblingIDs (images : List APIImage) (imageID : String) : List String :=
  (images.filter (fun img => img.ParentID == imageID)).map APIImage.ID

/-- `imageGetCached`: list all images, keep the lineage children of
`imageID`, return no match if there are none, otherwise fan out one
inspection per sibling and run the collect loop over the arrival
schedule. -/
def imageGetCached (w : World) (sched : List (Nat × String)) (imageID : String)
    (config : DockerConfig) : Except GoError (Option Image) × List Call :=
  match w.listImages with
  | .error e => (.error e, [Call.listImages])
  | .ok images =>
    let siblings := siblingIDs images imageID
    if siblings.isEmpty then (.ok none, [Call.listImages])
    else (collectCached w config siblings.length sched none 0,
          Call.listImages :: siblings.map Call.inspectImage)

/-- `probeCache`: immediate miss without engine calls when caching is off
or already busted; otherwise consult `imageGetCached`, becoming busted on
a genuine miss and advancing the session image identity on a hit. -/
def probeCache (w : World) (sched : List (Nat × String)) (b : Builder) :
    (Bool × Option GoError) × Builder × List Call :=
  if !b.UtilizeCache || b.cacheBusted then ((false, none), b, [])
  else
    match imageGetCached w sched b.imageID b.Config with
    | (.error e, tr) => ((false, some e), b, tr)
    | (.ok none, tr) => ((false, none), { b with cacheBusted := true }, tr)
    | (.ok (some cache), tr) => ((true, none), { b with imageID := cache.ID }, tr)

/-- A character of the capture class of `captureImageID`:
the Go regular expression class is `[a-z0-9]`. -/
def isIDChar (c : Char) : Bool :=
  ('a' ≤ c && c ≤ 'z') || ('0' ≤ c && c ≤ '9')

/-- The literal part of the `captureImageID` regular expression. -/
def successLit : List Char := "Successfully built ".toList

/-- Strip a literal from the front of a character list, or fail. -/
def dropLit : List Char → List Char → Option (List Char)
  | [], cs => some cs
  | _ :: _, [] => none
  | p :: ps, c :: cs => if p == c then dropLit ps cs else none

/-- Take exactly `n` characters of the `[a-z0-9]` class, or fail. -/
def takeIDChars : Nat → List Char → Option (List Char)
  | 0, _ => some []
  | _ + 1, [] => none
  | n + 1, c :: cs =>
    if isIDChar c then (takeIDChars n cs).map (fun l => c :: l) else none

/-- Match the whole regular expression anchored at the current position. -/
def matchCaptureAt (cs : List Char) : Option (List Char) :=
  match dropLit successLit cs with
  | none => none
  | some rest => takeIDChars 12 rest

/-- Leftmost search for the `captureImageID` pattern. -/
def findCapture : List Char → Option (List Char)
  | [] => none
  | c :: cs =>
    match matchCaptureAt (c :: cs) with
    | some r => some r
    | none => findCapture cs

/-- `captureImageID.FindStringSubmatch`, reduced to its capture group:
the leftmost occurrence of `Successfully built ` followed by exactly 12
characters of `[a-z0-9]`, returning those 12 characters. -/
def captureImageIDMatch (s : String) : Option String :=
  (findCapture s.toList).map (fun l => String.mk l)

/-- A character of the class the spec describes: 12-character
*hexadecimal* token.  This definition follows the spec's words, to be
compared with `isIDChar` taken from the source. -/
def isHexChar (c : Char) : Bool :=
  ('a' ≤ c && c ≤ 'f') || ('0' ≤ c && c ≤ '9')

/-- Take exactly `n` hexadecimal characters, or fail (spec's words). -/
def takeHexChars : Nat → List Char → Option (List Char)
  | 0, _ => some []
  | _ + 1, [] => none
  | n + 1, c :: cs =>
    if isHexChar c then (takeHexChars n cs).map (fun l => c :: l) else none

/-- The extraction pattern as the spec words it: the success literal
followed by a 12-character hexadecimal token.  This definition follows the
spec's words, to be compared with `captureImageIDMatch` taken from the
source. -/
def findHexCapture : List Char → Option (List Char)
  | [] => none
  | c :: cs =>
    match (match dropLit successLit (c :: cs) with
           | none => none
           | some rest => takeHexChars 12 rest) with
    | some r => some r
    | none => findHexCapture cs

/-- The spec-worded extraction over strings. -/
def captureHexIDMatch (s : String) : Option String :=
  (findHexCapture s.toList).map (fun l => String.mk l)

/-- The synthetic labeling node appended when the whole instruction
sequence is exactly `FROM scratch`. -/
def scratchLabelNode : Node := { Value := "label", args := ["ROCKER_SCRATCH=1"] }

/-- The scratch hack of `runDockerfile`: when the instruction sequence is
exactly a single `from scratch` node, append the synthetic label node. -/
def applyScratchHack (df : List Node) : List Node :=
  match df with
  | [n] =>
    if n.Value == "from" && n.args.head? == some "scratch" then [n, scratchLabelNode]
    else [n]
  | l => l

/-- Whether the first instruction is a `from` instruction. -/
def headIsFrom (df : List Node) : Bool :=
  match df.head? with
  | some n => n.Value == "from"
  | none => false

/-- The error message of the build-output-parse failure. -/
def parseErrMsg : GoError := "Couldn't find image id out of docker build output"

/-- The tail of `runDockerfile` from image-id extraction onwards: pattern
match the captured build output, inspect the extracted identifier
(rewriting the engine's bare `no such image` into `No such image: <id>`),
and on success replace the session's image identity and configuration
draft and clear the pending instruction buffer. -/
def finishBuild (w : World) (b1 : Builder) : Option GoError × Builder × List Call :=
  match captureImageIDMatch w.buildOutput with
  | none => (some parseErrMsg, b1, [])
  | some imageID12 =>
    match w.inspectImage imageID12 with
    | .error e =>
      (some (if e == "no such image" then "No such image: " ++ imageID12 else e), b1,
       [Call.inspectImage imageID12])
    | .ok image =>
      (none, { b1 with imageID := image.ID, Config := image.Config, dockerfile := [] },
       [Call.inspectImage imageID12])

/-- The pending buffer after both normalization steps of `runDockerfile`:
the scratch hack, then prepending a `from` node carrying the session's
current image identity when the first instruction is not a `from`. -/
def normalizedDockerfile (b : Builder) : List Node :=
  let df1 := applyScratchHack b.dockerfile
  if headIsFrom df1 then df1
  else { Value := "from", args := [b.imageID] } :: df1

/-- `runDockerfile` (the materialization driver): no-op on an empty
pending buffer; normalize the scratch and missing-`from` edge cases;
serialize and write the build file into the context directory (removed
again on every later exit path); issue the build, checking the progress
stream decode and then the background build result; then extract and
validate the image id via `finishBuild`. -/
def runDockerfile (w : World) (b : Builder) : Option GoError × Builder × List Call :=
  if b.dockerfile.isEmpty then (none, b, [])
  else
    let df1 := applyScratchHack b.dockerfile
    if !headIsFrom df1 && b.imageID == "" then
      (some "Missing initial FROM instruction", b, [])
    else
      let df2 := normalizedDockerfile b
      let b1 := { b with dockerfile := df2 }
      match w.serializeAst df2 with
      | .error e => (some e, b1, [])
      | .ok content =>
        match w.writeFileErr with
        | some e => (some e, b1, [Call.writeFile b.dockerfileNameStr])
        | none =>
          let tr0 := [Call.writeFile b.dockerfileNameStr,
                      Call.buildImage content (!b.UtilizeCache)]
          let fin := [Call.removeFile b.dockerfileNameStr]
          match w.buildStreamErr with
          | some e =>
            (some ("Failed to process json stream error: " ++ e), b1, tr0 ++ fin)
          | none =>
            match w.buildResult with
            | some e => (some ("Failed to build image: " ++ e), b1, tr0 ++ fin)
            | none =>
              match finishBuild w b1 with
              | (r, b2, tr1) => (r, b2, tr0 ++ tr1 ++ fin)

/-- `ensureImage`: inspect the name; on the engine's bare `no such image`
answer, issue a streaming pull (decode errors and pull errors are wrapped
with the image name); any other inspection error is surfaced as-is. -/
def ensureImage (w : World) (imageName : String) (purpose : String) :
    Option GoError × List Call :=
  match w.inspectImage imageName with
  | .error e =>
    if e == "no such image" then
      let tr := [Call.inspectImage imageName, Call.pullImage imageName]
      match w.pullStreamErr with
      | some se =>
        (some ("Failed to process json stream for image: " ++ imageName ++
               ", error: " ++ se), tr)
      | none =>
        match w.pullResult imageName with
        | some pe =>
          (some ("Failed to pull image: " ++ imageName ++ ", error: " ++ pe), tr)
        | none => (none, tr)
    else (some e, [Call.inspectImage imageName])
  | .ok _ => (none, [Call.inspectImage imageName])

/-- Modelled from the spec: the dedicated rsync-capable data-transfer
image constant (`rsyncImage`), defined outside `src/`. -/
def rsyncImage : String := "rocker-rsync-image"

/-- Modelled from the spec: the well-known exports volume path constant
(`exportsVolume`), defined outside `src/`. -/
def exportsVolume : String := "/.rocker_exports"

/-- `makeExportsContainer`: memoized on `exportsContainerID`; otherwise
build the exports-container configuration and ensure (create-if-absent)
the session-scoped container, caching its identity. -/
def makeExportsContainer (w : World) (b : Builder) :
    Except GoError String × Builder × List Call :=
  if b.exportsContainerID == "" then
    let containerConfig : DockerConfig :=
      { Cmd := [], Entrypoint := [], Env := [],
        Labels := [("Rockerfile", b.Rockerfile), ("ImageId", b.imageID)],
        Volumes := ["/opt/rsync/bin", exportsVolume],
        Image := rsyncImage }
    match w.ensureContainer b.exportsContainerNameStr containerConfig "exports" with
    | .error e => (.error e, b, [Call.ensureContainer b.exportsContainerNameStr])
    | .ok cont =>
      (.ok cont.ID, { b with exportsContainerID := cont.ID },
       [Call.ensureContainer b.exportsContainerNameStr])
  else (.ok b.exportsContainerID, b, [])

/-- `addLabels`: merge a label mapping into the draft's label map,
creating the map if absent; later keys overwrite earlier ones. -/
def addLabels (b : Builder) (labels : List (String × String)) : Builder :=
  { b with Config :=
    { b.Config with
      Labels := labels.foldl (fun m kv => mapInsert m kv.1 kv.2) b.Config.Labels } }

/-- The session operations of the embedded core that can touch the
builder state, used to state the monotonicity of `cacheBusted`. -/
inductive SessionOp where
  | probe (w : World) (sched : List (Nat × String))
  | materialize (w : World)
  | labels (ls : List (String × String))
  | exportsContainer (w : World)

/-- Apply a session operation to the builder state, keeping only the
resulting state. -/
def applyOp (b : Builder) : SessionOp → Builder
  | .probe w sched => (probeCache w sched b).2.1
  | .materialize w => (runDockerfile w b).2.1
  | .labels ls => addLabels b ls
  | .exportsContainer w => (makeExportsContainer w b).2.1

/-!
The configuration-overlay manager (`temporaryCmd` / `temporaryConfig`)
manipulates the draft through Go assignment semantics, where the struct
copy `origConfig := *builder.Config` copies map *references* but not the
maps' contents.  To make that observable, this part of the embedding gives
the draft an explicit heap of map objects: a map-typed field holds a
reference into the heap, struct copy copies the reference, and an in-place
map write updates the heap cell both copies point to.
-/

/-- Contents of one Go map object of type `map[string]string` (labels) or
`map[string]struct{}` (volumes, as keys with empty values). -/
abbrev LabelMap := List (String × String)

/-- The heap of Go map objects reachable from the configuration draft. -/
structure Heap where
  maps : List LabelMap
deriving DecidableEq, Repr

/-- Dereference a map reference. -/
def Heap.get (h : Heap) (r : Nat) : LabelMap := h.maps.getD r []

/-- In-place update of a map object. -/
def Heap.set (h : Heap) (r : Nat) (m : LabelMap) : Heap := ⟨h.maps.set r m⟩

/-- The configuration draft struct as Go sees it: scalar and slice-header
fields by value, map-typed fields as references into the heap. -/
structure ConfigV where
  Cmd : List String
  Entrypoint : List String
  Image : String
  labelsRef : Nat
  volumesRef : Nat
deriving DecidableEq, Repr

/-- The builder state visible to the overlay manager: the configuration
draft (the struct `*builder.Config` points to) together with the heap of
map objects. -/
structure OBuilder where
  Config : ConfigV
  heap : Heap
deriving DecidableEq, Repr

/-- The labels of the draft as an observer reads them: dereference the
draft's label-map reference in the current heap. -/
def observedLabels (b : OBuilder) : LabelMap := b.heap.get b.Config.labelsRef

/-- The volumes of the draft as an observer reads them. -/
def observedVolumes (b : OBuilder) : LabelMap := b.heap.get b.Config.volumesRef

/-- `temporaryCmd`: save the draft's command, overwrite it, and return the
restore closure that writes the saved command back into whatever state it
is applied to (the caller defers it, so it runs on every exit path). -/
def temporaryCmd (b : OBuilder) (cmd : List String) : OBuilder × (OBuilder → OBuilder) :=
  let origCmd := b.Config.Cmd
  ({ b with Config := { b.Config with Cmd := cmd } },
   fun b2 => { b2 with Config := { b2.Config with Cmd := origCmd } })

/-- `temporaryConfig`: snapshot the whole draft struct (`origConfig :=
*builder.Config`, a shallow copy sharing the map references), run the
mutator, and return the restore closure that points the builder back at
the snapshot (`builder.Config = &origConfig`); the heap of map objects is
left as the scope left it. -/
def temporaryConfig (b : OBuilder) (fn : OBuilder → OBuilder) :
    OBuilder × (OBuilder → OBuilder) :=
  let origConfig := b.Config
  (fn b, fun b2 => { b2 with Config := origConfig })

/-- An in-place label write `builder.Config.Labels[k] = v`, as `addLabels`
performs it: the map object the draft references is updated in the heap. -/
def setLabelInPlace (b : OBuilder) (k v : String) : OBuilder :=
  let newMap := mapInsert (b.heap.get b.Config.labelsRef) k v
  { b with heap := b.heap.set b.Config.labelsRef newMap }

/-!  Auxiliary vocabulary for the theorems. -/

/-- Total elapsed time of an arrival schedule, measured from the start of
the fan-out: the sum of the waiting gaps. -/
def schedTotal (sched : List (Nat × String)) : Nat :=
  (sched.map Prod.fst).sum

/-- A schedule entry answered in time: the wait is below the 10-unit timer
and the inspection of the recorded sibling succeeds with the given image. -/
def okWithin (w : World) (p : Nat × String) (img : Image) : Prop :=
  p.1 < 10 ∧ w.inspectImage p.2 = .ok img

/-- Whether an inspected candidate's originating configuration matches the
probed configuration. -/
def matchesCfg (config : DockerConfig) (img : Image) : Bool :=
  CompareConfigs img.ContainerConfig config

/-- Whether a trace entry is an auxiliary-container ensure call. -/
def isEnsureCall : Call → Bool
  | Call.ensureContainer _ => true
  | _ => false

/-- Number of container-creation (ensure) calls in a trace. -/
def countEnsure (tr : List Call) : Nat :=
  (tr.filter isEnsureCall).length

/-!  Concrete fixtures used by witnesses and counterexamples. -/

/-- Sample configuration. -/
def cfgS : DockerConfig :=
  { Cmd := ["run", "x"], Entrypoint := [], Env := ["A=1"],
    Labels := [("a", "1")], Volumes := ["/v"], Image := "base" }

/-- Sample non-matching configuration. -/
def cfgOther : DockerConfig := { cfgS with Cmd := ["other"] }

/-- Sample candidate image with the earlier creation timestamp. -/
def imgS1 : Image := { ID := "i1", Created := 5, ContainerConfig := cfgS, Config := cfgS }

/-- Sample candidate image with the later creation timestamp. -/
def imgS2 : Image := { ID := "i2", Created := 7, ContainerConfig := cfgS, Config := cfgS }

/-- Sample candidate image whose configuration does not match. -/
def imgS3 : Image := { ID := "i3", Created := 9, ContainerConfig := cfgOther, Config := cfgOther }

/-- Sample world: two matching lineage children `i1`, `i2` and one
non-matching child `i3` of parent `p`; the build output carries a
well-formed success line; pulls and the exports-container ensure succeed. -/
def worldS : World :=
  { listImages := .ok [⟨"i1", "p"⟩, ⟨"i2", "p"⟩, ⟨"i3", "p"⟩, ⟨"x", "q"⟩],
    inspectImage := fun s =>
      if s == "i1" then .ok imgS1
      else if s == "i2" then .ok imgS2
      else if s == "i3" then .ok imgS3
      else if s == "abc123abc123" then .ok imgS1
      else .error "no such image",
    buildResult := none,
    buildOutput := "Step 1\nSuccessfully built abc123abc123\n",
    buildStreamErr := none,
    pullResult := fun _ => none,
    pullStreamErr := none,
    serializeAst := fun _ => .ok "FROM base\nRUN x\n",
    writeFileErr := none,
    ensureContainer := fun _ _ _ => .ok ⟨"cexp"⟩ }

/-- Sample world whose inspections all fail with a distinctive error. -/
def worldErr : World :=
  { worldS with inspectImage := fun s =>
      if s == "i1" then .ok imgS1 else .error "inspect exploded" }

/-- Sample world where every inspection answers `no such image` and the
pull path succeeds. -/
def worldNS : World :=
  { worldS with inspectImage := fun _ => .error "no such image" }

/-- Sample builder probing parent `p` with configuration `cfgS`. -/
def builderS : Builder :=
  { imageID := "p", Config := cfgS,
    dockerfile := [⟨"from", ["base"]⟩, ⟨"run", ["x"]⟩],
    UtilizeCache := true, cacheBusted := false, exportsContainerID := "",
    Rockerfile := "Rockerfile", dockerfileNameStr := ".rockerfile.tmp",
    exportsContainerNameStr := "rocker_exports" }

/-- The C1 counterexample schedule: both candidates answer 9 units after
the previous loop iteration, so the fan-out runs 18 units in total. -/
def schedSlow : List (Nat × String) := [(9, "i1"), (9, "i2")]

/-- A prompt schedule: every candidate answers within one unit. -/
def schedFast : List (Nat × String) := [(1, "i1"), (1, "i2"), (1, "i3")]

/-- Sample world with exactly the two matching candidates `i1`, `i2` as
lineage children of `p`. -/
def worldSlow : World :=
  { worldS with listImages := .ok [⟨"i1", "p"⟩, ⟨"i2", "p"⟩] }

/-- Build output whose only token after the success literal is `z`-repeated:
lowercase alphanumeric but not hexadecimal. -/
def zOut : String := "Step 2 : RUN x\nSuccessfully built zzzzzzzzzzzz\n"

/-- Sample world producing the non-hexadecimal build output `zOut`, whose
inspection of the extracted token succeeds. -/
def worldZ : World :=
  { worldS with
    buildOutput := zOut,
    inspectImage := fun s =>
      if s == "zzzzzzzzzzzz" then .ok imgS1 else .error "no such image" }

/-- Sample overlay-model builder: empty labels map at heap cell 0, empty
volumes map at heap cell 1. -/
def obS : OBuilder :=
  { Config := { Cmd := ["run"], Entrypoint := [], Image := "base",
                labelsRef := 0, volumesRef := 1 },
    heap := ⟨[[], []]⟩ }

/-- The overlay-scope mutator of the C2 counterexample: one in-place label
write, exactly what `addLabels` does inside a scope. -/
def mutS : OBuilder → OBuilder := fun b => setLabelInPlace b "k" "v"

/-- Follows the spec's words: whether the text contains a run of 12
consecutive hexadecimal characters anywhere. -/
def hasHexRun12 : List Char → Bool
  | [] => false
  | c :: cs => (takeHexChars 12 (c :: cs)).isSome || hasHexRun12 cs

/-- Sample world whose captured build output contains no candidate
image-id token at all. -/
def worldNoID : World :=
  { worldS with buildOutput := "Removing intermediate container 123\n" }

/-!  Shared helper lemmas. -/

theorem finishBuild_cacheBusted (w : World) (b1 : Builder) :
    ((finishBuild w b1).2.1).cacheBusted = b1.cacheBusted := by
  unfold finishBuild
  repeat' split
  all_goals rfl

theorem runDockerfile_cacheBusted (w : World) (b : Builder) :
    ((runDockerfile w b).2.1).cacheBusted = b.cacheBusted := by
  simp only [runDockerfile]
  repeat' split
  all_goals try rfl
  all_goals exact finishBuild_cacheBusted w _

theorem makeExportsContainer_cacheBusted (w : World) (b : Builder) :
    ((makeExportsContainer w b).2.1).cacheBusted = b.cacheBusted := by
  simp only [makeExportsContainer]
  repeat' split
  all_goals rfl

theorem probeCache_skip_busted (w : World) (sched : List (Nat × String)) (b : Builder)
    (h : b.cacheBusted = true) : probeCache w sched b = ((false, none), b, []) := by
  simp [probeCache, h]

/-!
Theorems settling the claims.  Each claim's theorem carries the claim id
in its doc comment; amended statements say where the code diverges from
the spec sentence.
-/

/-- C2 counterexample: one in-place label write inside a
`temporaryConfig` scope survives the restore — the draft's labels read
`[("k","v")]` after the scope ends although they read `[]` before it
started, because the snapshot `origConfig := *builder.Config` is a shallow
struct copy sharing the label-map object. -/
theorem temporaryConfig_inPlace_cex :
    observedLabels ((temporaryConfig obS mutS).2 (temporaryConfig obS mutS).1) = [("k", "v")] ∧
    observedLabels obS = [] ∧
    observedLabels ((temporaryConfig obS mutS).2 (temporaryConfig obS mutS).1) ≠
      observedLabels obS := by
  refine ⟨rfl, rfl, by decide⟩

/-- C2 (amended): the restore closures restore the draft struct on every
exit path — after a `temporaryCmd` scope the draft's command is exactly
the prior command, and after a `temporaryConfig` scope the whole draft
struct (command, entrypoint, image and the map references) is exactly the
prior struct, whatever state the scope left behind; the heap of shared map
objects is left untouched by the restore, so in-place writes to the label
or volume maps made inside the scope are not undone. -/
theorem temporary_restores_draft_struct :
    (∀ (b : OBuilder) (cmd : List String) (b2 : OBuilder),
        ((temporaryCmd b cmd).2 b2).Config.Cmd = b.Config.Cmd) ∧
    (∀ (b : OBuilder) (fn : OBuilder → OBuilder) (b2 : OBuilder),
        ((temporaryConfig b fn).2 b2).Config = b.Config ∧
        ((temporaryConfig b fn).2 b2).heap = b2.heap) :=
  ⟨fun _ _ _ => rfl, fun _ _ _ => ⟨rfl, rfl⟩⟩

/-- C4: `cacheBusted` is monotonic across the embedded session operations —
once true it stays true — and whenever it is already true, or caching is
disabled for the session, `probeCache` returns `(false, nil)` at once,
leaves the session state unchanged, and issues no engine call. -/
theorem cacheBusted_sticky :
    (∀ (w : World) (sched : List (Nat × String)) (b : Builder),
        b.cacheBusted = true → probeCache w sched b = ((false, none), b, [])) ∧
    (∀ (w : World) (sched : List (Nat × String)) (b : Builder),
        b.UtilizeCache = false → probeCache w sched b = ((false, none), b, [])) ∧
    (∀ (b : Builder) (op : SessionOp),
        b.cacheBusted = true → (applyOp b op).cacheBusted = true) := by
  refine ⟨fun w sched b h => probeCache_skip_busted w sched b h,
          fun w sched b h => by simp [probeCache, h],
          fun b op h => ?_⟩
  cases op with
  | probe w sched =>
    have := probeCache_skip_busted w sched b h
    simp [applyOp, this, h]
  | materialize w =>
    have := runDockerfile_cacheBusted w b
    simp [applyOp, this, h]
  | labels ls => simpa [applyOp, addLabels] using h
  | exportsContainer w =>
    have := makeExportsContainer_cacheBusted w b
    simp [applyOp, this, h]

/-- C4 witness: the already-busted sample session is skipped unchanged
with an empty call trace. -/
theorem cacheBusted_sticky_witness :
    probeCache worldS schedFast { builderS with cacheBusted := true } =
      ((false, none), { builderS with cacheBusted := true }, []) :=
  cacheBusted_sticky.1 worldS schedFast { builderS with cacheBusted := true } rfl

/-- C9: materialization with an empty pending-instruction buffer succeeds
and changes nothing: the session state is returned as it was and no engine
or context-directory call is issued. -/
theorem runDockerfile_empty_noop (w : World) (b : Builder)
    (h : b.dockerfile = []) : runDockerfile w b = (none, b, []) := by
  simp [runDockerfile, h]

/-- C9 witness: the no-op materialization at the sample session. -/
theorem runDockerfile_empty_noop_witness :
    runDockerfile worldS { builderS with dockerfile := [] } =
      (none, { builderS with dockerfile := [] }, []) :=
  runDockerfile_empty_noop worldS { builderS with dockerfile := [] } rfl

/-- C10: whenever `probeCache` returns an error it returns `(false, err)`,
the session state is unchanged (in particular `cacheBusted` was and stays
false and the image identity is untouched) and the error is exactly the
one `imageGetCached` produced; and `cacheBusted` becomes true only on a
genuine miss (`imageGetCached` answering that no candidate matched, with
no error), the probe then reporting `(false, nil)`. -/
theorem probeCache_error_frame :
    (∀ (w : World) (sched : List (Nat × String)) (b : Builder) (e : GoError),
        (probeCache w sched b).1.2 = some e →
        (probeCache w sched b).2.1 = b ∧ b.cacheBusted = false ∧
        (probeCache w sched b).1.1 = false ∧
        (imageGetCached w sched b.imageID b.Config).1 = .error e) ∧
    (∀ (w : World) (sched : List (Nat × String)) (b : Builder),
        ((probeCache w sched b).2.1).cacheBusted = true →
        b.cacheBusted = true ∨
        ((imageGetCached w sched b.imageID b.Config).1 = .ok none ∧
         (probeCache w sched b).1 = (false, none) ∧
         (probeCache w sched b).2.1 = { b with cacheBusted := true })) := by
  constructor
  · intro w sched b e h
    by_cases hg : (!b.UtilizeCache || b.cacheBusted) = true
    · simp [probeCache, hg] at h
    · have hb : b.cacheBusted = false := by
        cases hcb : b.cacheBusted
        · rfl
        · exact absurd (by simp [hcb]) hg
      rcases hq : imageGetCached w sched b.imageID b.Config with ⟨r, tr⟩
      cases r with
      | error e2 =>
        refine ⟨?_, hb, ?_, ?_⟩ <;>
          simp_all [probeCache, hg, hq]
      | ok mo =>
        cases mo <;> simp_all [probeCache, hg, hq]
  · intro w sched b h
    by_cases hg : (!b.UtilizeCache || b.cacheBusted) = true
    · left
      simpa [probeCache, hg] using h
    · rcases hq : imageGetCached w sched b.imageID b.Config with ⟨r, tr⟩
      cases r with
      | error e2 => left; simp_all [probeCache, hg, hq]
      | ok mo =>
        cases mo with
        | none => right; simp_all [probeCache, hg, hq]
        | some cache => left; simp_all [probeCache, hg, hq]

/-- C8: after a first `makeExportsContainer` call that succeeds with a
non-empty identifier, a second call in the same session returns the very
same identifier while issuing no engine call at all, and the two calls
together perform at most one container-creation (ensure) call. -/
theorem makeExportsContainer_memoized (w : World) (b : Builder) (id : String)
    (h1 : (makeExportsContainer w b).1 = .ok id) (h2 : id ≠ "") :
    (makeExportsContainer w (makeExportsContainer w b).2.1).1 = .ok id ∧
    (makeExportsContainer w (makeExportsContainer w b).2.1).2.2 = [] ∧
    countEnsure ((makeExportsContainer w b).2.2 ++
      (makeExportsContainer w (makeExportsContainer w b).2.1).2.2) ≤ 1 := by
  have hid : (id == "") = false := beq_eq_false_iff_ne.mpr h2
  by_cases hm : (b.exportsContainerID == "") = true
  · cases he : w.ensureContainer b.exportsContainerNameStr
        { Cmd := [], Entrypoint := [], Env := [],
          Labels := [("Rockerfile", b.Rockerfile), ("ImageId", b.imageID)],
          Volumes := ["/opt/rsync/bin", exportsVolume], Image := rsyncImage }
        "exports" with
    | error e => simp [makeExportsContainer, hm, he] at h1
    | ok cont =>
      have hcid : cont.ID = id := by
        simpa [makeExportsContainer, hm, he] using h1
      simp [makeExportsContainer, hm, he, hcid, hid, h2, countEnsure, isEnsureCall]
  · have hbid : b.exportsContainerID = id := by
      simpa [makeExportsContainer, hm] using h1
    simp [makeExportsContainer, hm, hbid, h2, countEnsure]

/-- C8 witness: the sample session creates its exports container once and
the repeated call hands back the memoized identifier. -/
theorem makeExportsContainer_memoized_witness :
    (makeExportsContainer worldS (makeExportsContainer worldS builderS).2.1).1 =
      .ok "cexp" ∧
    (makeExportsContainer worldS (makeExportsContainer worldS builderS).2.1).2.2 = [] ∧
    countEnsure ((makeExportsContainer worldS builderS).2.2 ++
      (makeExportsContainer worldS (makeExportsContainer worldS builderS).2.1).2.2) ≤ 1 :=
  makeExportsContainer_memoized worldS builderS "cexp" rfl (by decide)

/-- C10 witness: at the sample world whose second inspection explodes, the
probe surfaces that error with the session unchanged. -/
theorem probeCache_error_frame_witness :
    (probeCache worldErr schedFast builderS).2.1 = builderS ∧
    builderS.cacheBusted = false ∧
    (probeCache worldErr schedFast builderS).1.1 = false ∧
    (imageGetCached worldErr schedFast builderS.imageID builderS.Config).1 =
      .error "inspect exploded" :=
  probeCache_error_frame.1 worldErr schedFast builderS "inspect exploded" rfl

theorem collectCached_ok (w : World) (config : DockerConfig) (total : Nat)
    (sched : List (Nat × String)) :
    ∀ (imgs : List Image) (m : Option Image) (n : Nat),
      List.Forall₂ (okWithin w) sched imgs →
      n + sched.length = total → n < total →
      collectCached w config total sched m n = .ok (imgs.foldl (updateMatch config) m) := by
  induction sched with
  | nil =>
    intro imgs m n hf hlen hlt
    cases hf
    simp at hlen
    omega
  | cons p rest ih =>
    intro imgs m n hf hlen hlt
    obtain ⟨gap, sid⟩ := p
    cases hf with
    | cons hpq hrest =>
      rename_i img imgs'
      obtain ⟨hgap, hins⟩ := hpq
      simp only [collectCached]
      rw [if_neg (by omega)]
      rw [hins]
      simp only [List.foldl_cons]
      by_cases hdone : n + 1 = total
      · have hrl : rest.length = 0 := by
          simp only [List.length_cons] at hlen; omega
        have himgs : imgs' = [] := by
          have := List.Forall₂.length_eq hrest
          rw [hrl] at this
          exact List.length_eq_zero.mp this.symm
        subst himgs
        rw [if_pos (by simp [hdone])]
        simp
      · rw [if_neg (by simp; omega)]
        exact ih imgs' (updateMatch config m img) (n + 1) hrest
          (by simp only [List.length_cons] at hlen; omega) (by omega)

theorem imageGetCached_complete (w : World) (sched : List (Nat × String))
    (imgs : List Image) (imageID : String) (config : DockerConfig)
    (images : List APIImage)
    (hli : w.listImages = .ok images)
    (hne : siblingIDs images imageID ≠ [])
    (hf : List.Forall₂ (okWithin w) sched imgs)
    (hlen : sched.length = (siblingIDs images imageID).length) :
    (imageGetCached w sched imageID config).1 = .ok (selectMatch config imgs) := by
  have hempty : (siblingIDs images imageID).isEmpty = false := by
    cases h : siblingIDs images imageID with
    | nil => exact absurd h hne
    | cons a l => rfl
  simp only [imageGetCached, hli, hempty, Bool.false_eq_true, if_false]
  exact collectCached_ok w config (siblingIDs images imageID).length sched imgs none 0
    hf (by omega) (List.length_pos.mpr hne)

theorem collectCached_timeout (w : World) (config : DockerConfig) (total : Nat)
    (pre : List (Nat × String)) :
    ∀ (imgsPre : List Image) (gap : Nat) (sid : String) (rest : List (Nat × String))
      (m : Option Image) (n : Nat),
      List.Forall₂ (okWithin w) pre imgsPre →
      n + pre.length < total → 10 ≤ gap →
      collectCached w config total (pre ++ (gap, sid) :: rest) m n = .error timeoutMsg := by
  induction pre with
  | nil =>
    intro imgsPre gap sid rest m n _ _ hgap
    simp only [List.nil_append, collectCached]
    rw [if_pos hgap]
  | cons p pre' ih =>
    intro imgsPre gap sid rest m n hf hlt hgap
    obtain ⟨g, s⟩ := p
    cases hf with
    | cons hpq hrest =>
      rename_i img imgsPre'
      obtain ⟨hg, hins⟩ := hpq
      simp only [List.cons_append, collectCached]
      rw [if_neg (by omega)]
      simp only [hins]
      rw [if_neg (by simp only [List.length_cons] at hlt; simp; omega)]
      exact ih imgsPre' gap sid rest _ (n + 1) hrest
        (by simp only [List.length_cons] at hlt ⊢; omega) hgap

theorem collectCached_error (w : World) (config : DockerConfig) (total : Nat)
    (pre : List (Nat × String)) :
    ∀ (imgsPre : List Image) (gap : Nat) (sid : String) (rest : List (Nat × String))
      (m : Option Image) (n : Nat) (e : GoError),
      List.Forall₂ (okWithin w) pre imgsPre →
      n + pre.length < total → gap < 10 → w.inspectImage sid = .error e →
      collectCached w config total (pre ++ (gap, sid) :: rest) m n = .error e := by
  induction pre with
  | nil =>
    intro imgsPre gap sid rest m n e _ _ hgap herr
    simp only [List.nil_append, collectCached]
    rw [if_neg (by omega)]
    rw [herr]
  | cons p pre' ih =>
    intro imgsPre gap sid rest m n e hf hlt hgap herr
    obtain ⟨g, s⟩ := p
    cases hf with
    | cons hpq hrest =>
      rename_i img imgsPre'
      obtain ⟨hg, hins⟩ := hpq
      simp only [List.cons_append, collectCached]
      rw [if_neg (by omega)]
      simp only [hins]
      rw [if_neg (by simp only [List.length_cons] at hlt; simp; omega)]
      exact ih imgsPre' gap sid rest _ (n + 1) e hrest
        (by simp only [List.length_cons] at hlt ⊢; omega) hgap herr

/-- C1 counterexample: with two candidates each answering 9 units after
the previous loop iteration, the whole fan-out takes 18 units — past the
10-unit ceiling measured from its start — yet the probe does not fail with
the timeout error: it returns the cache hit, because the
`time.After(10 * time.Second)` timer is re-created at every iteration of
the select loop. -/
theorem imageGetCached_wholeFanout_cex :
    10 < schedTotal schedSlow ∧
    (imageGetCached worldSlow schedSlow "p" cfgS).1 = .ok (some imgS2) :=
  ⟨by decide, rfl⟩

/-- C1 (amended): the 10-unit timer is re-armed at every iteration of the
collect loop, so it is a ceiling on each individual wait between
consecutive candidate results, not on the whole fan-out: when every wait
is below 10 units and all inspections answer, the probe never times out
however long the fan-out runs in total, while a single wait of 10 or more
units, occurring before all expected results are in, makes the probe fail
with the timeout error. -/
theorem imageGetCached_timeout_perWait :
    (∀ (w : World) (sched : List (Nat × String)) (imgs : List Image)
       (imageID : String) (config : DockerConfig) (images : List APIImage),
       w.listImages = .ok images →
       siblingIDs images imageID ≠ [] →
       List.Forall₂ (okWithin w) sched imgs →
       sched.length = (siblingIDs images imageID).length →
       ∃ r, (imageGetCached w sched imageID config).1 = .ok r) ∧
    (∀ (w : World) (pre : List (Nat × String)) (imgsPre : List Image) (gap : Nat)
       (sid : String) (rest : List (Nat × String)) (imageID : String)
       (config : DockerConfig) (images : List APIImage),
       w.listImages = .ok images →
       List.Forall₂ (okWithin w) pre imgsPre →
       pre.length < (siblingIDs images imageID).length →
       10 ≤ gap →
       (imageGetCached w (pre ++ (gap, sid) :: rest) imageID config).1 =
         .error timeoutMsg) := by
  constructor
  · intro w sched imgs imageID config images hli hne hf hlen
    exact ⟨selectMatch config imgs,
      imageGetCached_complete w sched imgs imageID config images hli hne hf hlen⟩
  · intro w pre imgsPre gap sid rest imageID config images hli hf hlen hgap
    have hne : siblingIDs images imageID ≠ [] := by
      intro h
      rw [h] at hlen
      simp at hlen
    have hempty : (siblingIDs images imageID).isEmpty = false := by
      cases h : siblingIDs images imageID with
      | nil => exact absurd h hne
      | cons a l => rfl
    simp only [imageGetCached, hli, hempty, Bool.false_eq_true, if_false]
    exact collectCached_timeout w config (siblingIDs images imageID).length pre
      imgsPre gap sid rest none 0 hf (by omega) hgap

/-- C1 witness: two prompt arrivals complete the two-sibling fan-out
without a timeout. -/
theorem imageGetCached_timeout_perWait_witness :
    ∃ r, (imageGetCached worldSlow [(1, "i1"), (1, "i2")] "p" cfgS).1 = .ok r :=
  imageGetCached_timeout_perWait.1 worldSlow [(1, "i1"), (1, "i2")] [imgS1, imgS2]
    "p" cfgS [⟨"i1", "p"⟩, ⟨"i2", "p"⟩] rfl (by decide)
    (List.Forall₂.cons ⟨by decide, rfl⟩
      (List.Forall₂.cons ⟨by decide, rfl⟩ List.Forall₂.nil)) rfl

/-- C7: if a candidate inspection fails while the probe is still
collecting — all earlier results having arrived in time and succeeded —
the whole probe aborts with exactly that inspection's error and reports no
partial result, even when an earlier candidate already matched the probed
configuration. -/
theorem imageGetCached_error_aborts (w : World) (pre : List (Nat × String))
    (imgsPre : List Image) (gap : Nat) (sid : String) (rest : List (Nat × String))
    (imageID : String) (config : DockerConfig) (images : List APIImage) (e : GoError)
    (hli : w.listImages = .ok images)
    (hf : List.Forall₂ (okWithin w) pre imgsPre)
    (hlen : pre.length < (siblingIDs images imageID).length)
    (hgap : gap < 10)
    (herr : w.inspectImage sid = .error e) :
    (imageGetCached w (pre ++ (gap, sid) :: rest) imageID config).1 = .error e := by
  have hne : siblingIDs images imageID ≠ [] := by
    intro h
    rw [h] at hlen
    simp at hlen
  have hempty : (siblingIDs images imageID).isEmpty = false := by
    cases h : siblingIDs images imageID with
    | nil => exact absurd h hne
    | cons a l => rfl
  simp only [imageGetCached, hli, hempty, Bool.false_eq_true, if_false]
  exact collectCached_error w config (siblingIDs images imageID).length pre
    imgsPre gap sid rest none 0 e hf (by omega) hgap herr

/-- C7 witness: the second arrival's inspection explodes after the first
candidate already matched, and the probe surfaces exactly that error. -/
theorem imageGetCached_error_aborts_witness :
    (imageGetCached worldErr [(1, "i1"), (1, "i2"), (1, "i3")] "p" cfgS).1 =
      .error "inspect exploded" :=
  imageGetCached_error_aborts worldErr [(1, "i1")] [imgS1] 1 "i2" [(1, "i3")]
    "p" cfgS [⟨"i1", "p"⟩, ⟨"i2", "p"⟩, ⟨"i3", "p"⟩, ⟨"x", "q"⟩] "inspect exploded"
    rfl (List.Forall₂.cons ⟨by decide, rfl⟩ List.Forall₂.nil) (by decide) (by decide) rfl

theorem updateMatch_some_some (config : DockerConfig) (cur img : Image) :
    ∃ x, updateMatch config (some cur) img = some x ∧ cur.Created ≤ x.Created := by
  by_cases h : CompareConfigs img.ContainerConfig config = true
  · by_cases hlt : cur.Created < img.Created
    · exact ⟨img, by simp [updateMatch, h, hlt], le_of_lt hlt⟩
    · exact ⟨cur, by simp [updateMatch, h, hlt], le_refl _⟩
  · exact ⟨cur, by simp [updateMatch, h], le_refl _⟩

theorem updateMatch_match_some (config : DockerConfig) (m0 : Option Image) (img : Image)
    (h : matchesCfg config img = true) :
    ∃ x, updateMatch config m0 img = some x ∧ img.Created ≤ x.Created := by
  have h' : CompareConfigs img.ContainerConfig config = true := h
  cases m0 with
  | none => exact ⟨img, by simp [updateMatch, h'], le_refl _⟩
  | some cur =>
    by_cases hlt : cur.Created < img.Created
    · exact ⟨img, by simp [updateMatch, h', hlt], le_refl _⟩
    · exact ⟨cur, by simp [updateMatch, h', hlt], le_of_not_lt hlt⟩

theorem foldl_updateMatch_mono (config : DockerConfig) (imgs : List Image) :
    ∀ (cur : Image), ∃ m, imgs.foldl (updateMatch config) (some cur) = some m ∧
      cur.Created ≤ m.Created := by
  induction imgs with
  | nil => intro cur; exact ⟨cur, rfl, le_refl _⟩
  | cons j rest ih =>
    intro cur
    obtain ⟨x, hx, hcx⟩ := updateMatch_some_some config cur j
    obtain ⟨m, hm, hxm⟩ := ih x
    exact ⟨m, by rw [List.foldl_cons, hx]; exact hm, le_trans hcx hxm⟩

theorem foldl_updateMatch_max (config : DockerConfig) (imgs : List Image) :
    ∀ (m0 : Option Image) (m i : Image),
      imgs.foldl (updateMatch config) m0 = some m →
      i ∈ imgs → matchesCfg config i = true →
      i.Created ≤ m.Created := by
  induction imgs with
  | nil => intro m0 m i _ hmem; cases hmem
  | cons j rest ih =>
    intro m0 m i h hmem hmatch
    rw [List.foldl_cons] at h
    rcases List.mem_cons.mp hmem with heq | hmem'
    · subst heq
      obtain ⟨x, hx, hix⟩ := updateMatch_match_some config m0 i hmatch
      rw [hx] at h
      obtain ⟨m', hm', hxm'⟩ := foldl_updateMatch_mono config rest x
      rw [hm'] at h
      injection h with h
      subst h
      exact le_trans hix hxm'
    · exact ih (updateMatch config m0 j) m i h hmem' hmatch

theorem foldl_updateMatch_mem (config : DockerConfig) (imgs : List Image) :
    ∀ (m0 : Option Image) (m : Image),
      imgs.foldl (updateMatch config) m0 = some m →
      m0 = some m ∨ (m ∈ imgs ∧ matchesCfg config m = true) := by
  induction imgs with
  | nil => intro m0 m h; left; exact h
  | cons j rest ih =>
    intro m0 m h
    rw [List.foldl_cons] at h
    rcases ih (updateMatch config m0 j) m h with h1 | h2
    · by_cases hcmp : CompareConfigs j.ContainerConfig config = true
      · cases m0 with
        | none =>
          have h1' : j = m := by simpa [updateMatch, hcmp] using h1
          subst h1'
          exact Or.inr ⟨List.mem_cons_self _ _, hcmp⟩
        | some cur =>
          by_cases hlt : cur.Created < j.Created
          · have h1' : j = m := by simpa [updateMatch, hcmp, hlt] using h1
            subst h1'
            exact Or.inr ⟨List.mem_cons_self _ _, hcmp⟩
          · have h1' : cur = m := by simpa [updateMatch, hcmp, hlt] using h1
            subst h1'
            exact Or.inl rfl
      · left
        rw [← h1]
        simp [updateMatch, hcmp]
    · right; exact ⟨List.mem_cons_of_mem _ h2.1, h2.2⟩

theorem foldl_updateMatch_hit (config : DockerConfig) (imgs : List Image) :
    ∀ (m0 : Option Image) (i : Image), i ∈ imgs → matchesCfg config i = true →
      ∃ m, imgs.foldl (updateMatch config) m0 = some m := by
  induction imgs with
  | nil => intro m0 i hmem _; cases hmem
  | cons j rest ih =>
    intro m0 i hmem hmatch
    rw [List.foldl_cons]
    rcases List.mem_cons.mp hmem with heq | hmem'
    · subst heq
      obtain ⟨x, hx, _⟩ := updateMatch_match_some config m0 i hmatch
      rw [hx]
      obtain ⟨m, hm, _⟩ := foldl_updateMatch_mono config rest x
      exact ⟨m, hm⟩
    · exact ih (updateMatch config m0 j) i hmem' hmatch

theorem selectMatch_pair_tie (config : DockerConfig) (a b : Image)
    (ha : matchesCfg config a = true) (hb : matchesCfg config b = true)
    (heq : a.Created = b.Created) : selectMatch config [a, b] = some a := by
  have ha' : CompareConfigs a.ContainerConfig config = true := ha
  have hb' : CompareConfigs b.ContainerConfig config = true := hb
  simp [selectMatch, updateMatch, ha', hb', heq]

theorem imageGetCached_latest_aux (w : World) (sched : List (Nat × String))
    (imgs : List Image) (imageID : String) (config : DockerConfig)
    (images : List APIImage) (i : Image)
    (hli : w.listImages = .ok images)
    (hne : siblingIDs images imageID ≠ [])
    (hf : List.Forall₂ (okWithin w) sched imgs)
    (hlen : sched.length = (siblingIDs images imageID).length)
    (hmem : i ∈ imgs) (hmatch : matchesCfg config i = true) :
    ∃ m, (imageGetCached w sched imageID config).1 = .ok (some m) ∧
      m ∈ imgs ∧ matchesCfg config m = true ∧
      ∀ j ∈ imgs, matchesCfg config j = true → j.Created ≤ m.Created := by
  have hcomplete := imageGetCached_complete w sched imgs imageID config images hli hne hf hlen
  obtain ⟨m, hm⟩ := foldl_updateMatch_hit config imgs none i hmem hmatch
  have hmm : m ∈ imgs ∧ matchesCfg config m = true := by
    rcases foldl_updateMatch_mem config imgs none m hm with h0 | h1
    · exact absurd h0 (by simp)
    · exact h1
  refine ⟨m, ?_, hmm.1, hmm.2, ?_⟩
  · rw [hcomplete]
    exact congrArg Except.ok hm
  · intro j hj hjm
    exact foldl_updateMatch_max config imgs none m j hm hj hjm

/-- C3: under a complete, timely, error-free fan-out (i) whenever some
received candidate's originating configuration matches the probed
configuration — in particular whenever at least two do — the prober
answers a matching candidate whose creation timestamp is latest among all
matching candidates; (ii) when exactly one received candidate matches,
precisely that candidate is selected; (iii) between two matching
candidates with exactly equal creation timestamps, the selection keeps the
one received first. -/
theorem imageGetCached_selects_latest :
    (∀ (w : World) (sched : List (Nat × String)) (imgs : List Image)
       (imageID : String) (config : DockerConfig) (images : List APIImage) (i : Image),
       w.listImages = .ok images →
       siblingIDs images imageID ≠ [] →
       List.Forall₂ (okWithin w) sched imgs →
       sched.length = (siblingIDs images imageID).length →
       i ∈ imgs → matchesCfg config i = true →
       ∃ m, (imageGetCached w sched imageID config).1 = .ok (some m) ∧
         m ∈ imgs ∧ matchesCfg config m = true ∧
         ∀ j ∈ imgs, matchesCfg config j = true → j.Created ≤ m.Created) ∧
    (∀ (w : World) (sched : List (Nat × String)) (imgs : List Image)
       (imageID : String) (config : DockerConfig) (images : List APIImage) (u : Image),
       w.listImages = .ok images →
       siblingIDs images imageID ≠ [] →
       List.Forall₂ (okWithin w) sched imgs →
       sched.length = (siblingIDs images imageID).length →
       imgs.filter (matchesCfg config) = [u] →
       (imageGetCached w sched imageID config).1 = .ok (some u)) ∧
    (∀ (config : DockerConfig) (a b : Image),
       matchesCfg config a = true → matchesCfg config b = true →
       a.Created = b.Created → selectMatch config [a, b] = some a) := by
  refine ⟨imageGetCached_latest_aux, ?_, selectMatch_pair_tie⟩
  intro w sched imgs imageID config images u hli hne hf hlen hfilter
  have hu : u ∈ imgs.filter (matchesCfg config) := by
    rw [hfilter]; exact List.mem_cons_self _ _
  obtain ⟨humem, humatch⟩ := List.mem_filter.mp hu
  obtain ⟨m, hok, hmem, hmatch, _⟩ :=
    imageGetCached_latest_aux w sched imgs imageID config images u hli hne hf hlen
      humem humatch
  have hmf : m ∈ imgs.filter (matchesCfg config) := List.mem_filter.mpr ⟨hmem, hmatch⟩
  rw [hfilter] at hmf
  have : m = u := by simpa using hmf
  rw [← this]
  exact hok

/-- C3 witness: at the two-candidate sample fan-out the selected hit is a
matching candidate of maximal creation time. -/
theorem imageGetCached_selects_latest_witness :
    ∃ m, (imageGetCached worldSlow [(1, "i1"), (1, "i2")] "p" cfgS).1 = .ok (some m) ∧
      m ∈ [imgS1, imgS2] ∧ matchesCfg cfgS m = true ∧
      ∀ j ∈ [imgS1, imgS2], matchesCfg cfgS j = true → j.Created ≤ m.Created :=
  imageGetCached_selects_latest.1 worldSlow [(1, "i1"), (1, "i2")] [imgS1, imgS2]
    "p" cfgS [⟨"i1", "p"⟩, ⟨"i2", "p"⟩] imgS1 rfl (by decide)
    (List.Forall₂.cons ⟨by decide, rfl⟩
      (List.Forall₂.cons ⟨by decide, rfl⟩ List.Forall₂.nil)) rfl
    (List.mem_cons_self _ _) (by decide)

theorem runDockerfile_pipeline (w : World) (b : Builder) (c : String)
    (hne : b.dockerfile ≠ [])
    (hfrom : headIsFrom (applyScratchHack b.dockerfile) = true ∨ b.imageID ≠ "")
    (hser : w.serializeAst (normalizedDockerfile b) = .ok c)
    (hwr : w.writeFileErr = none)
    (hstream : w.buildStreamErr = none)
    (hbuild : w.buildResult = none) :
    runDockerfile w b =
      ((finishBuild w { b with dockerfile := normalizedDockerfile b }).1,
       (finishBuild w { b with dockerfile := normalizedDockerfile b }).2.1,
       [Call.writeFile b.dockerfileNameStr, Call.buildImage c (!b.UtilizeCache)] ++
         (finishBuild w { b with dockerfile := normalizedDockerfile b }).2.2 ++
         [Call.removeFile b.dockerfileNameStr]) := by
  have hne' : b.dockerfile.isEmpty = false := by
    cases hd : b.dockerfile with
    | nil => exact absurd hd hne
    | cons a l => rfl
  have hguard : (!headIsFrom (applyScratchHack b.dockerfile) && b.imageID == "") = false := by
    rcases hfrom with h | h
    · simp [h]
    · simp [beq_eq_false_iff_ne.mpr h]
  simp [runDockerfile, hne', hguard, hser, hwr, hstream, hbuild]

/-- C5 counterexample: a build output whose only candidate token is
`zzzzzzzzzzzz` — 12 lowercase-alphanumeric characters containing no
hexadecimal digit run — has no 12-character hexadecimal token anywhere in
the text, yet extraction succeeds with that token and materialization
completes without a build-output-parse error. -/
theorem captureImageID_nonHex_cex :
    hasHexRun12 zOut.toList = false ∧
    captureHexIDMatch zOut = none ∧
    captureImageIDMatch zOut = some "zzzzzzzzzzzz" ∧
    (runDockerfile worldZ builderS).1 = none := by
  refine ⟨by decide, rfl, rfl, rfl⟩

/-- C5 (amended): the extraction pattern of `captureImageID` is the
literal `Successfully built ` followed by exactly 12 characters of
`[a-z0-9]` — lowercase alphanumeric, not specifically hexadecimal.  When
the materialization pipeline reaches the extraction step, it fails with
the build-output-parse error iff the captured output contains no such
match, inspecting nothing in that case; on a match it proceeds to
validate exactly the captured token via inspection. -/
theorem runDockerfile_extraction (w : World) (b : Builder) (c : String)
    (hne : b.dockerfile ≠ [])
    (hfrom : headIsFrom (applyScratchHack b.dockerfile) = true ∨ b.imageID ≠ "")
    (hser : w.serializeAst (normalizedDockerfile b) = .ok c)
    (hwr : w.writeFileErr = none)
    (hstream : w.buildStreamErr = none)
    (hbuild : w.buildResult = none) :
    (captureImageIDMatch w.buildOutput = none →
       (runDockerfile w b).1 = some parseErrMsg ∧
       ∀ id, Call.inspectImage id ∉ (runDockerfile w b).2.2) ∧
    (∀ id, captureImageIDMatch w.buildOutput = some id →
       Call.inspectImage id ∈ (runDockerfile w b).2.2) := by
  have hpipe := runDockerfile_pipeline w b c hne hfrom hser hwr hstream hbuild
  constructor
  · intro hcap
    rw [hpipe]
    simp [finishBuild, hcap]
  · intro id hcap
    rw [hpipe]
    cases hins : w.inspectImage id with
    | error e => simp [finishBuild, hcap, hins]
    | ok image => simp [finishBuild, hcap, hins]

/-- C5 witness: a build output carrying no candidate token makes the
sample pipeline fail with the parse error, inspecting nothing. -/
theorem runDockerfile_extraction_witness :
    (runDockerfile worldNoID builderS).1 = some parseErrMsg ∧
    ∀ id, Call.inspectImage id ∉ (runDockerfile worldNoID builderS).2.2 :=
  (runDockerfile_extraction worldNoID builderS "FROM base\nRUN x\n"
    (by decide) (Or.inl (by decide)) rfl rfl rfl rfl).1 rfl

/-- C6 counterexample: the engine's inspection of the name reports the
bare `no such image`, yet `ensureImage` surfaces no error at all — it
issues a pull for the image instead of reporting `No such image: <id>`. -/
theorem ensureImage_noSuchImage_cex :
    worldNS.inspectImage "lib/img:latest" = .error "no such image" ∧
    (ensureImage worldNS "lib/img:latest" "run").1 = none ∧
    Call.pullImage "lib/img:latest" ∈ (ensureImage worldNS "lib/img:latest" "run").2 := by
  refine ⟨rfl, rfl, by decide⟩

/-- C6 (amended): when the engine's inspection reports the bare `no such
image`, `ensureImage` does not surface a `No such image: <id>` error: it
issues a streaming pull, succeeding iff the stream decode and the pull
both succeed and wrapping their failures with the image name; the rewrite
of the engine's bare message into `No such image: <id>` is instead
performed by the build driver (`finishBuild`, the extraction tail of
`runDockerfile`) when validating the freshly extracted image id. -/
theorem ensureImage_pull_and_rewrite :
    (∀ (w : World) (name purpose : String),
       w.inspectImage name = .error "no such image" →
       Call.pullImage name ∈ (ensureImage w name purpose).2 ∧
       ((ensureImage w name purpose).1 = none ↔
         w.pullStreamErr = none ∧ w.pullResult name = none)) ∧
    (∀ (w : World) (b1 : Builder) (id : String),
       captureImageIDMatch w.buildOutput = some id →
       w.inspectImage id = .error "no such image" →
       (finishBuild w b1).1 = some ("No such image: " ++ id)) := by
  constructor
  · intro w name purpose h
    constructor
    · cases hs : w.pullStreamErr with
      | none =>
        cases hp : w.pullResult name with
        | none => simp [ensureImage, h, hs, hp]
        | some pe => simp [ensureImage, h, hs, hp]
      | some se => simp [ensureImage, h, hs]
    · cases hs : w.pullStreamErr with
      | none =>
        cases hp : w.pullResult name with
        | none => simp [ensureImage, h, hs, hp]
        | some pe => simp [ensureImage, h, hs, hp]
      | some se => simp [ensureImage, h, hs]
  · intro w b1 id hcap hins
    simp [finishBuild, hcap, hins]

/-- C6 witness: at the all-missing sample world the named image is pulled
and the call succeeds. -/
theorem ensureImage_pull_and_rewrite_witness :
    Call.pullImage "lib/base:latest" ∈ (ensureImage worldNS "lib/base:latest" "build").2 ∧
    ((ensureImage worldNS "lib/base:latest" "build").1 = none ↔
      worldNS.pullStreamErr = none ∧ worldNS.pullResult "lib/base:latest" = none) :=
  ensureImage_pull_and_rewrite.1 worldNS "lib/base:latest" "build" rfl

end Rocker

